import Mathlib

set_option maxRecDepth 10000

/-
Verification of the pipeline orchestration core of the feedback-analysis
repository (src/main_app.py) against its natural-language specification.

The embedding models:
  * Python's `json.loads` on the JSON subset it accepts (objects, arrays,
    strings with escapes, numbers, true/false/null, NaN/Infinity), with
    numbers kept as their numeral lexemes (no claim depends on numeric
    values) and lone surrogate escapes, which Lean's `Char` cannot
    represent, mapped to U+FFFD;
  * the per-message candidate scan of `process_single_item`
    (main_app.py lines 139-151) and its fallback record (lines 155-164);
  * the deliberation scheduler: in the source this is autogen's
    `RoundRobinGroupChat` with `TextMentionTermination("APPROVED")` and
    `max_turns=6` (library code, not part of the repository), so it is
    modelled from the spec (section 4.3): the stream yields the task
    message first, then one message per stage turn; a turn whose output
    contains the termination token is the last turn; a generation error
    aborts the run; at most `max_turns` turns happen.  Stage outputs are
    an oracle parameter `Nat -> TurnOutcome` (turn index to outcome),
    since they come from an external generation backend;
  * the batch loop of `main` (lines 173-226): column validation of the two
    sources, item preparation, and one ticket per item.
-/

/-- Characters Python's `str.strip` / pandas `.str.strip()` removes
(modelled for the ASCII whitespace range). -/
def isPySpace (c : Char) : Bool :=
  c == ' ' || c == '\t' || c == '\n' || c == '\r' || c == '\x0b' || c == '\x0c'

/-- Python `s.strip()` on both ends. -/
def pyStrip (s : String) : String :=
  (((s.toList.dropWhile isPySpace).reverse.dropWhile isPySpace).reverse).asString

/-- Does `hay` start with `needle`? -/
def listStartsWith : List Char → List Char → Bool
  | [], _ => true
  | _ :: _, [] => false
  | p :: ps, c :: cs => p == c && listStartsWith ps cs

/-- Python's substring test `needle in hay`. -/
def hasSubstr : List Char → List Char → Bool
  | needle, [] => needle.isEmpty
  | needle, c :: rest => listStartsWith needle (c :: rest) || hasSubstr needle rest

/-- Index of the first occurrence of `c` at or after position `i`. -/
def findFrom (c : Char) : List Char → Nat → Option Nat
  | [], _ => none
  | x :: xs, i => if x == c then some i else findFrom c xs (i + 1)

/-- Python `s.find(c)` (as an `Option`; Python returns -1 for `none`). -/
def pyFind (c : Char) (s : List Char) : Option Nat :=
  findFrom c s 0

/-- Python `s.rfind(c)` (as an `Option`; Python returns -1 for `none`). -/
def pyRfind (c : Char) (s : List Char) : Option Nat :=
  match pyFind c s.reverse with
  | some j => some (s.length - 1 - j)
  | none => none

/-- JSON values as Python's `json.loads` produces them: objects keep field
order with duplicate keys collapsed to the last value (dict semantics);
numbers keep their numeral lexeme. -/
inductive Json where
  | null : Json
  | bool (b : Bool) : Json
  | num (lexeme : String) : Json
  | str (s : String) : Json
  | arr (elems : List Json) : Json
  | obj (fields : List (String × Json)) : Json

/-- The whitespace `json.loads` skips (its `_ws` set). -/
def isJsonWs (c : Char) : Bool :=
  c == ' ' || c == '\t' || c == '\n' || c == '\r'

def skipWs (s : List Char) : List Char :=
  s.dropWhile isJsonWs

/-- Value of a hexadecimal digit. -/
def hexVal (c : Char) : Option Nat :=
  if c.isDigit then some (c.toNat - 48)
  else if 97 ≤ c.toNat && c.toNat ≤ 102 then some (c.toNat - 97 + 10)
  else if 65 ≤ c.toNat && c.toNat ≤ 70 then some (c.toNat - 65 + 10)
  else none

/-- Scalar value `n` as a `Char`; surrogate code points (which Python keeps
as lone surrogates in its `str`) become U+FFFD. -/
def codeChar (n : Nat) : Char :=
  if n.isValidChar then Char.ofNat n else '\uFFFD'

/-- Body of a JSON string after the opening quote: returns the decoded
string and the input after the closing quote, mirroring
`json.decoder.py_scanstring` in strict mode. -/
def parseStringBody : Nat → List Char → List Char → Option (String × List Char)
  | 0, _, _ => none
  | _ + 1, [], _ => none
  | fuel + 1, c :: rest, acc =>
    if c == '"' then some (acc.reverse.asString, rest)
    else if c == '\\' then
      match rest with
      | '"' :: r => parseStringBody fuel r ('"' :: acc)
      | '\\' :: r => parseStringBody fuel r ('\\' :: acc)
      | '/' :: r => parseStringBody fuel r ('/' :: acc)
      | 'b' :: r => parseStringBody fuel r ('\x08' :: acc)
      | 'f' :: r => parseStringBody fuel r ('\x0c' :: acc)
      | 'n' :: r => parseStringBody fuel r ('\n' :: acc)
      | 'r' :: r => parseStringBody fuel r ('\r' :: acc)
      | 't' :: r => parseStringBody fuel r ('\t' :: acc)
      | 'u' :: h1 :: h2 :: h3 :: h4 :: r =>
        (match hexVal h1, hexVal h2, hexVal h3, hexVal h4 with
         | some a, some b, some c2, some d =>
           let n := ((a * 16 + b) * 16 + c2) * 16 + d
           if 0xd800 ≤ n && n ≤ 0xdbff then
             match r with
             | '\\' :: 'u' :: r2 =>
               (match r2 with
                | g1 :: g2 :: g3 :: g4 :: r3 =>
                  (match hexVal g1, hexVal g2, hexVal g3, hexVal g4 with
                   | some a2, some b2, some c3, some d2 =>
                     let m := ((a2 * 16 + b2) * 16 + c3) * 16 + d2
                     if 0xdc00 ≤ m && m ≤ 0xdfff then
                       parseStringBody fuel r3
                         (codeChar (0x10000 + (n - 0xd800) * 0x400 + (m - 0xdc00)) :: acc)
                     else parseStringBody fuel r (codeChar n :: acc)
                   | _, _, _, _ => none)
                | _ => none)
             | _ => parseStringBody fuel r (codeChar n :: acc)
           else parseStringBody fuel r (codeChar n :: acc)
         | _, _, _, _ => none)
      | _ => none
    else if c.toNat < 0x20 then none
    else parseStringBody fuel rest (c :: acc)

/-- Fractional part `(\.\d+)?` of the JSON number regex: returns the
consumed lexeme part and the rest (consuming nothing when absent). -/
def fracPart (s : List Char) : List Char × List Char :=
  match s with
  | '.' :: r =>
    let d := r.takeWhile Char.isDigit
    if d.isEmpty then ([], s) else ('.' :: d, r.dropWhile Char.isDigit)
  | _ => ([], s)

/-- Exponent part `([eE][-+]?\d+)?` of the JSON number regex. -/
def expPart (s : List Char) : List Char × List Char :=
  match s with
  | c :: r =>
    if c == 'e' || c == 'E' then
      let (sgn, r2) :=
        match r with
        | c2 :: rr => if c2 == '+' || c2 == '-' then ([c2], rr) else (([] : List Char), r)
        | [] => ([], r)
      let d := r2.takeWhile Char.isDigit
      if d.isEmpty then ([], s) else (c :: (sgn ++ d), r2.dropWhile Char.isDigit)
    else ([], s)
  | [] => ([], s)

/-- A JSON number by the scanner's regex
`(-?(?:0|[1-9]\d*))(\.\d+)?([eE][-+]?\d+)?` (maximal munch): the numeral
lexeme and the rest of the input. -/
def parseNumber (s : List Char) : Option (String × List Char) :=
  let (sign, s1) :=
    match s with
    | '-' :: r => (['-'], r)
    | _ => (([] : List Char), s)
  match s1 with
  | c :: r =>
    if c == '0' then
      let (f, r2) := fracPart r
      let (e, r3) := expPart r2
      some ((sign ++ ['0'] ++ f ++ e).asString, r3)
    else if c.isDigit then
      let d := r.takeWhile Char.isDigit
      let r1 := r.dropWhile Char.isDigit
      let (f, r2) := fracPart r1
      let (e, r3) := expPart r2
      some ((sign ++ (c :: d) ++ f ++ e).asString, r3)
    else none
  | [] => none

/-- Add a parsed object member with Python dict semantics: a repeated key
replaces the value at the key's first position. -/
def insertField : List (String × Json) → String → Json → List (String × Json)
  | [], k, v => [(k, v)]
  | (k1, v1) :: fs, k, v =>
    if k1 == k then (k1, v) :: fs else (k1, v1) :: insertField fs k v

mutual

/-- One JSON value at the head of the input (no leading whitespace),
mirroring `json.scanner.py_make_scanner`'s `_scan_once`. -/
def parseVal : Nat → List Char → Option (Json × List Char)
  | 0, _ => none
  | fuel + 1, s =>
    match s with
    | '\x7b' :: rest =>
      (match parseMembers fuel (skipWs rest) [] true with
       | some (fs, r) => some (Json.obj fs, r)
       | none => none)
    | '[' :: rest =>
      (match parseElems fuel (skipWs rest) [] true with
       | some (xs, r) => some (Json.arr xs, r)
       | none => none)
    | '"' :: rest =>
      (match parseStringBody (rest.length + 1) rest [] with
       | some (k, r) => some (Json.str k, r)
       | none => none)
    | 't' :: 'r' :: 'u' :: 'e' :: r => some (Json.bool true, r)
    | 'f' :: 'a' :: 'l' :: 's' :: 'e' :: r => some (Json.bool false, r)
    | 'n' :: 'u' :: 'l' :: 'l' :: r => some (Json.null, r)
    | 'N' :: 'a' :: 'N' :: r => some (Json.num "NaN", r)
    | 'I' :: 'n' :: 'f' :: 'i' :: 'n' :: 'i' :: 't' :: 'y' :: r =>
      some (Json.num "Infinity", r)
    | '-' :: 'I' :: 'n' :: 'f' :: 'i' :: 'n' :: 'i' :: 't' :: 'y' :: r =>
      some (Json.num "-Infinity", r)
    | s' =>
      (match parseNumber s' with
       | some (lex, r) => some (Json.num lex, r)
       | none => none)

/-- Members of a JSON object after the opening brace (whitespace already
skipped); `first` is true before the first member, where an immediate
closing brace yields the empty object. -/
def parseMembers : Nat → List Char → List (String × Json) → Bool →
    Option (List (String × Json) × List Char)
  | 0, _, _, _ => none
  | fuel + 1, s, acc, first =>
    match s with
    | '\x7d' :: r => if first then some (acc, r) else none
    | '"' :: rest =>
      (match parseStringBody (rest.length + 1) rest [] with
       | none => none
       | some (k, r1) =>
         match skipWs r1 with
         | ':' :: r2 =>
           (match parseVal fuel (skipWs r2) with
            | none => none
            | some (v, r3) =>
              match skipWs r3 with
              | '\x7d' :: r4 => some (insertField acc k v, r4)
              | ',' :: r4 => parseMembers fuel (skipWs r4) (insertField acc k v) false
              | _ => none)
         | _ => none)
    | _ => none

/-- Elements of a JSON array after the opening bracket (whitespace already
skipped); `first` is true before the first element. -/
def parseElems : Nat → List Char → List Json → Bool →
    Option (List Json × List Char)
  | 0, _, _, _ => none
  | fuel + 1, s, acc, first =>
    match s with
    | ']' :: r => if first then some (acc.reverse, r) else none
    | s' =>
      (match parseVal fuel s' with
       | none => none
       | some (v, r1) =>
         match skipWs r1 with
         | ']' :: r2 => some ((v :: acc).reverse, r2)
         | ',' :: r2 => parseElems fuel (skipWs r2) (v :: acc) false
         | _ => none)

end

/-- Python `json.loads` on a character list: leading/trailing whitespace is
allowed, anything else left over is an error.  The fuel `length + 2`
suffices: every recursion level first consumes at least one character. -/
def jsonLoadsL (s : List Char) : Option Json :=
  let s1 := skipWs s
  match parseVal (s1.length + 2) s1 with
  | some (v, r) => if (skipWs r).isEmpty then some v else none
  | none => none

/-- Python `json.loads` on a string. -/
def jsonLoads (s : String) : Option Json :=
  jsonLoadsL s.toList

example : jsonLoads "\x7b\"title\": 1\x7d" = some (Json.obj [("title", Json.num "1")]) := rfl
example : jsonLoads " \x7b \"a\" : [1, -2.5e3, true, null, \"x\"] \x7d " =
    some (Json.obj [("a", Json.arr [Json.num "1", Json.num "-2.5e3",
      Json.bool true, Json.null, Json.str "x"])]) := rfl
example : jsonLoads "\x7b\"a\":1\x7d x" = none := rfl
example : jsonLoads "" = none := rfl
example : jsonLoads "01" = none := rfl
example : jsonLoads "\x7b\"\\u0074itle\": 2\x7d" = some (Json.obj [("title", Json.num "2")]) := rfl
example : jsonLoads "\x7b\"a\": 1, \"a\": 2\x7d" = some (Json.obj [("a", Json.num "2")]) := rfl
example : jsonLoads "\x7b\"a\":1,\x7d" = none := rfl
example : jsonLoads "NaN" = some (Json.num "NaN") := rfl
example : jsonLoads "\x7b\"s\": \"a\\\"b\\n\\u00e9\"\x7d" =
    some (Json.obj [("s", Json.str "a\"b\né")]) := rfl

/-- Hexadecimal digit character (lowercase), as `json.dumps` emits. -/
def hexDigit (n : Nat) : Char :=
  if n < 10 then Char.ofNat (48 + n) else Char.ofNat (97 + (n - 10))

/-- Four-digit hexadecimal rendering of `n` (low 16 bits). -/
def hex4 (n : Nat) : List Char :=
  [hexDigit (n / 4096 % 16), hexDigit (n / 256 % 16), hexDigit (n / 16 % 16), hexDigit (n % 16)]

/-- One character as `json.dumps` (default `ensure_ascii=True`) renders it
inside a string literal. -/
def escapeAsciiChar (c : Char) : List Char :=
  if c == '"' then ['\\', '"']
  else if c == '\\' then ['\\', '\\']
  else if c == '\n' then ['\\', 'n']
  else if c == '\r' then ['\\', 'r']
  else if c == '\t' then ['\\', 't']
  else if c == '\x08' then ['\\', 'b']
  else if c == '\x0c' then ['\\', 'f']
  else if c.toNat < 0x20 || 0x7e < c.toNat then
    if c.toNat ≤ 0xffff then '\\' :: 'u' :: hex4 c.toNat
    else
      let v := c.toNat - 0x10000
      ('\\' :: 'u' :: hex4 (0xd800 + v / 0x400)) ++ ('\\' :: 'u' :: hex4 (0xdc00 + v % 0x400))
  else [c]

/-- A string as a `json.dumps` string literal. -/
def dumpQuoted (s : String) : String :=
  ('"' :: s.toList.foldr (fun c acc => escapeAsciiChar c ++ acc) ['"']).asString

mutual

/-- Python `json.dumps` with default separators; numbers are rendered as
their stored numeral lexeme. -/
def pyDumps : Json → String
  | Json.null => "null"
  | Json.bool true => "true"
  | Json.bool false => "false"
  | Json.num lex => lex
  | Json.str s => dumpQuoted s
  | Json.arr xs => "[" ++ pyDumpsElems xs ++ "]"
  | Json.obj fs => "\x7b" ++ pyDumpsFields fs ++ "\x7d"

/-- Comma-separated `json.dumps` rendering of array elements. -/
def pyDumpsElems : List Json → String
  | [] => ""
  | [x] => pyDumps x
  | x :: y :: rest => pyDumps x ++ ", " ++ pyDumpsElems (y :: rest)

/-- Comma-separated `json.dumps` rendering of object members. -/
def pyDumpsFields : List (String × Json) → String
  | [] => ""
  | [(k, v)] => dumpQuoted k ++ ": " ++ pyDumps v
  | (k, v) :: p :: rest => dumpQuoted k ++ ": " ++ pyDumps v ++ ", " ++ pyDumpsFields (p :: rest)

end

/-- Is the float a numeral lexeme denotes nonzero (Python truthiness of the
parsed number)?  `NaN`/`Infinity` are truthy; a mantissa of zeros is falsy
whatever the exponent. -/
def numNonzero (lex : String) : Bool :=
  let cs := lex.toList.filter (fun c => !(c == '-' || c == '+'))
  match cs with
  | c :: _ =>
    if c.isAlpha then true
    else (cs.takeWhile (fun c2 => !(c2 == 'e' || c2 == 'E'))).any
      (fun c2 => c2.isDigit && c2 != '0')
  | [] => false

/-- Python truthiness (`if not final_json`) of a parsed JSON value. -/
def pyTruthy : Json → Bool
  | Json.null => false
  | Json.bool b => b
  | Json.num lex => numNonzero lex
  | Json.str s => !s.toList.isEmpty
  | Json.arr xs => !xs.isEmpty
  | Json.obj fs => !fs.isEmpty

/-- Python `k in data` on a parsed JSON value: key lookup for a dict,
element membership for a list, substring for a string; `none` models the
`TypeError` other types raise (swallowed by the caller's bare `except`). -/
def pyInStr (k : String) : Json → Option Bool
  | Json.obj fs => some (fs.any (fun kv => kv.1 == k))
  | Json.arr xs =>
    some (xs.any (fun x => match x with | Json.str s => s == k | _ => false))
  | Json.str s => some (hasSubstr k.toList s.toList)
  | _ => none

/-- Python `data.get(k, d)` for a parsed JSON dict (`d` on any other
value, a case the program never reaches with a non-dict). -/
def dictGetD (j : Json) (k : String) (d : Json) : Json :=
  match j with
  | Json.obj fs =>
    (match fs.find? (fun kv => kv.1 == k) with
     | some kv => kv.2
     | none => d)
  | _ => d

def titleChars : List Char := "title".toList

/-- The slice `content[content.find("\x7b") : content.rfind("\x7d") + 1]`
of main_app.py lines 144-146 (empty when there is no opening brace, which
the caller's guard rules out). -/
def braceSnippet (cs : List Char) : List Char :=
  match pyFind '\x7b' cs with
  | none => []
  | some start =>
    let stop :=
      match pyRfind '\x7d' cs with
      | none => 0
      | some i => i + 1
    (cs.drop start).take (stop - start)

/-- The candidate scan applied to one message content (as characters),
mirroring main_app.py lines 142-151: guard
`"\x7b" in content and "title" in content`, then `json.loads` on the brace
slice, then `"title" in data`; every failure is swallowed (`none`). -/
def extractCandidateL (cs : List Char) : Option Json :=
  if hasSubstr ['\x7b'] cs && hasSubstr titleChars cs then
    match jsonLoadsL (braceSnippet cs) with
    | some data =>
      (match pyInStr "title" data with
       | some b => if b then some data else none
       | none => none)
    | none => none
  else none

/-- The candidate scan on a message content string. -/
def extractCandidate (content : String) : Option Json :=
  extractCandidateL content.toList

/-- Does the parsed JSON value have a top-level `title` field? -/
def jsonHasTitleField : Json → Bool
  | Json.obj fs => fs.any (fun kv => kv.1 == "title")
  | _ => false

/-- Follows the spec's wording of the ResponseExtractor (section 4.2), for
comparison with the source's `extractCandidateL`: locate the first opening
and the last closing brace; if both exist and the substring between them
parses as valid JSON containing a `title` field, it is a candidate;
otherwise no candidate. -/
def specResponseExtractL (cs : List Char) : Option Json :=
  match pyFind '\x7b' cs, pyRfind '\x7d' cs with
  | some _, some _ =>
    (match jsonLoadsL (braceSnippet cs) with
     | some data => if jsonHasTitleField data then some data else none
     | none => none)
  | _, _ => none

/-- The spec's extractor on a message content string. -/
def specResponseExtract (content : String) : Option Json :=
  specResponseExtractL content.toList

/-- Outcome of invoking one stage: its textual message, or a generation
error raised by the backend call. -/
inductive TurnOutcome where
  | ok (content : String)
  | genError (msg : String)
deriving DecidableEq

/-- The literal termination token, `TextMentionTermination("APPROVED")` in
main_app.py line 114. -/
def termination_text : String := "APPROVED"

/-- The turn cap, `max_turns=6` in main_app.py line 120. -/
def max_turns : Nat := 6

/-- Substring check the termination condition performs on each message. -/
def containsToken (s : String) : Bool :=
  hasSubstr termination_text.toList s.toList

/-- Modelled from the spec: the deliberation scheduler (spec section 4.3),
realized in the source by autogen's `RoundRobinGroupChat` (library code,
not in the repository).  Starting at turn `t` with `fuel` turns left, the
log of stage invocations: a turn whose output contains the termination
token is the last one; a generation error aborts the run and is the last
entry; otherwise turns continue until the fuel (turn cap) is spent. -/
def runLogAux (o : Nat → TurnOutcome) : Nat → Nat → List (Nat × TurnOutcome)
  | _, 0 => []
  | t, fuel + 1 =>
    match o t with
    | TurnOutcome.genError e => [(t, TurnOutcome.genError e)]
    | TurnOutcome.ok c =>
      if containsToken c then [(t, TurnOutcome.ok c)]
      else (t, TurnOutcome.ok c) :: runLogAux o (t + 1) fuel

/-- Modelled from the spec: the full invocation log of one item's run.  If
the task message itself contains the termination token the condition is
already met and no stage runs; otherwise up to `max_turns` turns happen. -/
def runLog (task : String) (o : Nat → TurnOutcome) : List (Nat × TurnOutcome) :=
  if containsToken task then [] else runLogAux o 0 max_turns

/-- The message a turn contributed, if it did not error. -/
def turnContent : TurnOutcome → Option String
  | TurnOutcome.ok c => some c
  | TurnOutcome.genError _ => none

/-- Modelled from the spec: the message contents `team.run_stream(task)`
yields, in order — the task message first, then each stage turn's
message. -/
def streamMsgs (task : String) (o : Nat → TurnOutcome) : List String :=
  task :: (runLog task o).filterMap (fun p => turnContent p.2)

/-- The generation error a run raised, if any. -/
def runErr (task : String) (o : Nat → TurnOutcome) : Option String :=
  (runLog task o).findSome?
    (fun p => match p.2 with | TurnOutcome.genError e => some e | _ => none)

/-- Number of stage invocations in one run (an aborted invocation
counts: its stage was selected and called). -/
def turns_taken (task : String) (o : Nat → TurnOutcome) : Nat :=
  (runLog task o).length

/-- The task message of main_app.py lines 123-133, with `row_id` and
`text` interpolated. -/
def task_msg (row_id text : String) : String :=
  "\n    PROCESS THIS FEEDBACK (ID: " ++ row_id ++ "): \"" ++ text ++
  "\"\n    \n    Pipeline:\n    1. Classifier: Categorize.\n    2. Bug_Analyst & Feature_Extractor: Extract details.\n    3. Ticket_Creator: Draft JSON.\n    4. Quality_Critic: Review.\n    \n    Ticket_Creator: Output final JSON before approval.\n    "

/-- One step of the scan loop: a message that yields a candidate replaces
`final_json`, any other message leaves it unchanged. -/
def stepCandidate (acc : Json) (m : String) : Json :=
  match extractCandidate m with
  | some j => j
  | none => acc

/-- The scan loop over a sequence of messages, starting from the current
`final_json`. -/
def foldCandidates (init : Json) (msgs : List String) : Json :=
  msgs.foldl stepCandidate init

/-- The deterministic fallback record of main_app.py lines 156-162. -/
def fallbackRecord (row_id : String) : Json :=
  Json.obj [("title", Json.str ("Error Processing " ++ row_id)),
            ("category", Json.str "Error"),
            ("priority", Json.str "Low"),
            ("details", Json.obj [("error", Json.str "Agents did not produce valid JSON")])]

/-- main_app.py `process_single_item`: run the team, scan every streamed
message for the last valid candidate, and return it, or the fallback
record when `final_json` is still falsy.  Stage outputs are the oracle
`o`; a generation error ends the stream early (messages before it were
already scanned), and the bare `except` turns it into the fallback path. -/
def process_single_item (row_id source_type text : String)
    (o : Nat → TurnOutcome) : Json :=
  let msgs := streamMsgs (task_msg row_id text) o
  let final_json := foldCandidates (Json.obj []) msgs
  if pyTruthy final_json then final_json else fallbackRecord row_id

/-- One prepared input item (the dicts built in main_app.py lines
199/206). -/
structure FeedbackItem where
  id : String
  type : String
  text : String

/-- One output ticket (the dict built in main_app.py lines 217-225);
`title`/`category`/`priority` hold whatever JSON values `result.get`
returned, `details` holds the `json.dumps` serialization. -/
structure TicketRecord where
  ticket_id : String
  title : Json
  category : Json
  priority : Json
  details : String
  source_id : String
  source_type : String

/-- The ticket built from one item's result dict (main_app.py lines
217-225). -/
def mkTicket (item : FeedbackItem) (result : Json) : TicketRecord :=
  { ticket_id := "TKT-" ++ item.id
    title := dictGetD result "title" (Json.str "Untitled")
    category := dictGetD result "category" (Json.str "Uncategorized")
    priority := dictGetD result "priority" (Json.str "Low")
    details := pyDumps (dictGetD result "details" (Json.obj []))
    source_id := item.id
    source_type := item.type }

/-- The batch loop of main_app.py lines 213-226: one
`process_single_item` call and one appended ticket per item, in input
order.  Each item's stage outputs come from its own oracle `o item`. -/
def run_all (o : FeedbackItem → Nat → TurnOutcome)
    (items : List FeedbackItem) : List TicketRecord :=
  items.foldl
    (fun acc item =>
      acc ++ [mkTicket item (process_single_item item.id item.type item.text (o item))])
    []

/-- A loaded tabular source: column names and rows of cell strings (cells
indexed positionally by column). -/
structure Table where
  columns : List String
  rows : List (List String)

/-- The column-name cleaning of main_app.py lines 179-180
(`columns.str.strip()`). -/
def stripColumns (t : Table) : Table :=
  { t with columns := t.columns.map pyStrip }

/-- Cell of `row` under column `c` of `t`. -/
def getCol (t : Table) (c : String) (row : List String) : String :=
  match t.columns.findIdx? (fun x => x == c) with
  | some i => row.getD i ""
  | none => ""

/-- Items built from the reviews source (main_app.py lines 198-199). -/
def reviewItems (t : Table) : List FeedbackItem :=
  t.rows.map (fun r => ⟨getCol t "review_id" r, "Review", getCol t "review_text" r⟩)

/-- Items built from the emails source (main_app.py lines 205-206). -/
def emailItems (t : Table) : List FeedbackItem :=
  t.rows.map (fun r => ⟨getCol t "email_id" r, "Email", getCol t "body" r⟩)

/-- The required-column check for the reviews source (line 197). -/
def hasReviewCols (t : Table) : Bool :=
  t.columns.contains "review_id" && t.columns.contains "review_text"

/-- The required-column check for the emails source (line 204). -/
def hasEmailCols (t : Table) : Bool :=
  t.columns.contains "email_id" && t.columns.contains "body"

/-- Result of item preparation: the item list and whether each source was
skipped with a warning. -/
structure Prepared where
  items : List FeedbackItem
  warnedReviews : Bool
  warnedEmails : Bool

/-- Item preparation of main_app.py lines 194-208: each source
contributes its rows only when its required columns are present after
stripping; a failing source is skipped whole, with a warning, and the
other source's items remain. -/
def prepareItems (reviews emails : Table) : Prepared :=
  let r := stripColumns reviews
  let e := stripColumns emails
  let ri := if hasReviewCols r then reviewItems r else []
  let ei := if hasEmailCols e then emailItems e else []
  ⟨ri ++ ei, !hasReviewCols r, !hasEmailCols e⟩

/-- The category enumeration of the spec's data model (section 3). -/
def specCategoryNames : List String :=
  ["Bug", "FeatureRequest", "Praise", "Complaint", "Spam", "Error"]

/-- The priority enumeration of the spec's data model (section 3). -/
def specPriorityNames : List String :=
  ["Critical", "High", "Medium", "Low"]

/-- Is the value one of the spec's category enum constants? -/
def isSpecCategory : Json → Bool
  | Json.str s => specCategoryNames.contains s
  | _ => false

/-- Is the value one of the spec's priority enum constants? -/
def isSpecPriority : Json → Bool
  | Json.str s => specPriorityNames.contains s
  | _ => false

example : extractCandidate "Here is \x7b\"title\": \"T\"\x7d done" =
    some (Json.obj [("title", Json.str "T")]) := rfl
example : extractCandidate "no json at all" = none := rfl
example : extractCandidate "title but \x7bbroken\x7d" = none := rfl
example : extractCandidate "\x7b\"\\u0074itle\": 2\x7d" = none := rfl
example : specResponseExtract "\x7b\"\\u0074itle\": 2\x7d" =
    some (Json.obj [("title", Json.num "2")]) := rfl
example :
    process_single_item "R1" "Review" "App crashes on login"
      (fun t =>
        if t == 3 then TurnOutcome.ok "\x7b\"title\": \"Login crash\", \"category\": \"Bug\", \"priority\": \"High\", \"details\": \x7b\"steps\": [\"open app\", \"tap login\"]\x7d\x7d"
        else if t == 4 then TurnOutcome.ok "APPROVED"
        else TurnOutcome.ok "step") =
    Json.obj [("title", Json.str "Login crash"), ("category", Json.str "Bug"),
      ("priority", Json.str "High"),
      ("details", Json.obj [("steps", Json.arr [Json.str "open app", Json.str "tap login"])])] := rfl
example :
    turns_taken (task_msg "R1" "App crashes on login")
      (fun t => if t == 4 then TurnOutcome.ok "APPROVED" else TurnOutcome.ok "step") = 5 := rfl
example :
    process_single_item "R9" "Review" "plain words only"
      (fun _ => TurnOutcome.ok "chatter") = fallbackRecord "R9" := rfl

theorem foldl_append_map {α β : Type} (f : α → β) :
    ∀ (l : List α) (acc : List β),
      l.foldl (fun a x => a ++ [f x]) acc = acc ++ l.map f
  | [], acc => by simp
  | x :: xs, acc => by
    simp only [List.foldl, List.map]
    rw [foldl_append_map f xs (acc ++ [f x])]
    simp

/-- The batch loop produces exactly the per-item tickets, in order. -/
theorem run_all_eq_map (o : FeedbackItem → Nat → TurnOutcome)
    (items : List FeedbackItem) :
    run_all o items =
      items.map (fun item =>
        mkTicket item (process_single_item item.id item.type item.text (o item))) := by
  unfold run_all
  rw [foldl_append_map]
  simp

theorem findSome?_append_eq {α β : Type} (f : α → Option β) :
    ∀ l1 l2 : List α,
      (l1 ++ l2).findSome? f =
        match l1.findSome? f with
        | some b => some b
        | none => l2.findSome? f
  | [], l2 => by simp [List.findSome?]
  | x :: xs, l2 => by
    simp only [List.cons_append, List.findSome?]
    cases f x with
    | some b => rfl
    | none => exact findSome?_append_eq f xs l2

theorem exists_of_findSome?_some {α β : Type} (f : α → Option β) :
    ∀ (l : List α) (b : β), l.findSome? f = some b → ∃ x ∈ l, f x = some b
  | [], b, h => by simp [List.findSome?] at h
  | x :: xs, b, h => by
    simp only [List.findSome?] at h
    cases hx : f x with
    | some c =>
      refine ⟨x, List.mem_cons_self x xs, ?_⟩
      rw [hx] at h ⊢
      exact h
    | none =>
      rw [hx] at h
      obtain ⟨y, hy, hfy⟩ := exists_of_findSome?_some f xs b h
      exact ⟨y, List.mem_cons_of_mem x hy, hfy⟩

theorem findSome?_eq_none_of_all {α β : Type} (f : α → Option β) :
    ∀ l : List α, (∀ x ∈ l, f x = none) → l.findSome? f = none
  | [], _ => rfl
  | x :: xs, h => by
    simp only [List.findSome?]
    rw [h x (List.mem_cons_self x xs)]
    exact findSome?_eq_none_of_all f xs (fun y hy => h y (List.mem_cons_of_mem x hy))

/-- The scan loop keeps exactly the most recent candidate: its result is
the last message that yields one (searched from the end), or the initial
value when no message yields any. -/
theorem foldCandidates_eq_last :
    ∀ (msgs : List String) (init : Json),
      foldCandidates init msgs =
        match msgs.reverse.findSome? extractCandidate with
        | some j => j
        | none => init
  | [], init => rfl
  | m :: ms, init => by
    simp only [foldCandidates, List.foldl, List.reverse_cons]
    rw [show List.foldl stepCandidate (stepCandidate init m) ms =
          foldCandidates (stepCandidate init m) ms from rfl]
    rw [foldCandidates_eq_last ms (stepCandidate init m)]
    rw [findSome?_append_eq]
    cases hms : ms.reverse.findSome? extractCandidate with
    | some b => rfl
    | none =>
      simp only [List.findSome?, stepCandidate]
      cases extractCandidate m <;> rfl

/-- Any value the scan accepts is truthy: it always carries a `title`
membership witness, so the final `if not final_json` test cannot discard
it. -/
theorem extract_truthy (cs : List Char) (j : Json)
    (h : extractCandidateL cs = some j) : pyTruthy j = true := by
  unfold extractCandidateL at h
  by_cases hg : (hasSubstr ['\x7b'] cs && hasSubstr titleChars cs) = true
  · rw [if_pos hg] at h
    cases hl : jsonLoadsL (braceSnippet cs) with
    | none => rw [hl] at h; exact absurd h (by simp)
    | some d =>
      rw [hl] at h
      cases d with
      | null => simp [pyInStr] at h
      | bool b => simp [pyInStr] at h
      | num lex => simp [pyInStr] at h
      | str s =>
        simp only [pyInStr] at h
        cases hs : hasSubstr "title".toList s.toList with
        | false => rw [hs] at h; exact absurd h (by simp)
        | true =>
          rw [hs] at h
          cases h
          cases hl2 : s.toList with
          | nil => rw [hl2] at hs; exact absurd hs (by decide)
          | cons c cs =>
            simp only [pyTruthy]
            rw [hl2]
            simp
      | arr xs =>
        simp only [pyInStr] at h
        cases ha : xs.any (fun x => match x with | Json.str s => s == "title" | _ => false) with
        | false => rw [ha] at h; exact absurd h (by simp)
        | true =>
          rw [ha] at h
          cases h
          cases xs with
          | nil => simp at ha
          | cons y ys => simp [pyTruthy]
      | obj fs =>
        simp only [pyInStr] at h
        cases ha : fs.any (fun kv => kv.1 == "title") with
        | false => rw [ha] at h; exact absurd h (by simp)
        | true =>
          rw [ha] at h
          cases h
          cases fs with
          | nil => simp at ha
          | cons kv fs' => simp [pyTruthy]
  · rw [if_neg hg] at h
    exact absurd h (by simp)

/-- `process_single_item` in closed form: the most recent candidate among
all streamed messages, else the fallback record. -/
theorem process_single_item_char (row_id source_type text : String)
    (o : Nat → TurnOutcome) :
    process_single_item row_id source_type text o =
      match (streamMsgs (task_msg row_id text) o).reverse.findSome? extractCandidate with
      | some j => j
      | none => fallbackRecord row_id := by
  have hdef : process_single_item row_id source_type text o =
      (if pyTruthy (foldCandidates (Json.obj [])
            (streamMsgs (task_msg row_id text) o)) = true
       then foldCandidates (Json.obj []) (streamMsgs (task_msg row_id text) o)
       else fallbackRecord row_id) := rfl
  rw [hdef, foldCandidates_eq_last]
  cases h : (streamMsgs (task_msg row_id text) o).reverse.findSome? extractCandidate with
  | none => simp [pyTruthy]
  | some j =>
    obtain ⟨x, _, hx⟩ := exists_of_findSome?_some extractCandidate _ _ h
    simp [extract_truthy x.toList j hx]

theorem runLogAux_length (o : Nat → TurnOutcome) :
    ∀ (fuel t : Nat), (runLogAux o t fuel).length ≤ fuel
  | 0, t => by simp [runLogAux]
  | fuel + 1, t => by
    unfold runLogAux
    cases o t with
    | genError e => simp
    | ok c =>
      by_cases hc : containsToken c = true
      · simp [hc]
      · simp only [hc, if_false, List.length_cons, Bool.false_eq_true]
        exact Nat.succ_le_succ (runLogAux_length o fuel (t + 1))

theorem runLogAux_mem_lb (o : Nat → TurnOutcome) :
    ∀ (fuel t : Nat) (p : Nat × TurnOutcome), p ∈ runLogAux o t fuel → t ≤ p.1
  | 0, t, p, h => by simp [runLogAux] at h
  | fuel + 1, t, p, h => by
    unfold runLogAux at h
    cases ho : o t with
    | genError e =>
      rw [ho] at h
      simp at h
      simp [h]
    | ok c =>
      rw [ho] at h
      by_cases hc : containsToken c = true
      · simp [hc] at h
        simp [h]
      · simp [hc] at h
        rcases h with h1 | h2
        · simp [h1]
        · exact Nat.le_of_succ_le (runLogAux_mem_lb o fuel (t + 1) p h2)

theorem runLogAux_token_last (o : Nat → TurnOutcome) :
    ∀ (fuel t n : Nat) (c : String),
      (n, TurnOutcome.ok c) ∈ runLogAux o t fuel → containsToken c = true →
      ∀ p ∈ runLogAux o t fuel, p.1 ≤ n
  | 0, t, n, c, hmem, _, p, hp => by simp [runLogAux] at hmem
  | fuel + 1, t, n, c, hmem, htok, p, hp => by
    unfold runLogAux at hmem hp
    cases ho : o t with
    | genError e =>
      rw [ho] at hmem
      simp at hmem
    | ok c0 =>
      rw [ho] at hmem hp
      by_cases hc : containsToken c0 = true
      · simp [hc] at hmem hp
        simp [hp, hmem.1]
      · simp [hc] at hmem hp
        rcases hmem with ⟨hn, hcc⟩ | h2
        · rw [← hcc] at hc
          exact absurd htok hc
        · rcases hp with hp1 | hp2
          · rw [hp1]
            exact Nat.le_of_succ_le (runLogAux_mem_lb o fuel (t + 1) _ h2)
          · exact runLogAux_token_last o fuel (t + 1) n c h2 htok p hp2

theorem findFrom_isSome_shift (c : Char) :
    ∀ (s : List Char) (i j : Nat), (findFrom c s i).isSome = (findFrom c s j).isSome
  | [], _, _ => rfl
  | x :: xs, i, j => by
    unfold findFrom
    by_cases h : (x == c) = true
    · simp [h]
    · simp only [h, if_false, Bool.false_eq_true]
      exact findFrom_isSome_shift c xs (i + 1) (j + 1)

/-- The guard `"\x7b" in content` agrees with `content.find("\x7b")`
succeeding. -/
theorem hasSubstr_singleton (c : Char) :
    ∀ s : List Char, hasSubstr [c] s = (pyFind c s).isSome
  | [] => rfl
  | x :: xs => by
    unfold hasSubstr listStartsWith pyFind findFrom
    by_cases h : x = c
    · subst h
      simp
      exact Or.inl rfl
    · have h1 : (x == c) = false := by simpa using h
      have h2 : (c == x) = false := by simpa using (Ne.symm h)
      simp only [h1, h2, if_false, Bool.false_and, Bool.false_or, Bool.false_eq_true]
      rw [hasSubstr_singleton c xs]
      exact findFrom_isSome_shift c xs 0 1

theorem findFrom_head (c : Char) :
    ∀ (s : List Char) (i n : Nat), findFrom c s i = some n →
      i ≤ n ∧ (s.drop (n - i)).head? = some c
  | [], i, n, h => by simp [findFrom] at h
  | x :: xs, i, n, h => by
    unfold findFrom at h
    by_cases hx : (x == c) = true
    · rw [if_pos hx] at h
      cases h
      refine ⟨Nat.le_refl i, ?_⟩
      simp [Nat.sub_self]
      exact eq_of_beq hx
    · rw [if_neg hx] at h
      obtain ⟨h1, h2⟩ := findFrom_head c xs (i + 1) n h
      refine ⟨by omega, ?_⟩
      have hs : n - i = (n - (i + 1)) + 1 := by omega
      rw [hs]
      simpa using h2

theorem pyFind_head (c : Char) (s : List Char) (n : Nat)
    (h : pyFind c s = some n) : (s.drop n).head? = some c := by
  have hh := findFrom_head c s 0 n h
  simpa using hh.2

theorem jsonLoadsL_nil : jsonLoadsL [] = none := rfl

theorem parseVal_lbrace (fuel : Nat) (rest : List Char) :
    parseVal (fuel + 1) ('\x7b' :: rest) =
      match parseMembers fuel (skipWs rest) [] true with
      | some (fs, r) => some (Json.obj fs, r)
      | none => none := rfl

/-- A successful `json.loads` of input starting with an opening brace goes
through the object branch of the scanner. -/
theorem jsonLoadsL_lbrace (t : List Char) :
    jsonLoadsL ('\x7b' :: t) =
      match parseMembers (t.length + 2) (skipWs t) [] true with
      | some (fs, r) => if (skipWs r).isEmpty then some (Json.obj fs) else none
      | none => none := by
  show (match parseVal ((skipWs ('\x7b' :: t)).length + 2) (skipWs ('\x7b' :: t)) with
        | some (v, r) => if (skipWs r).isEmpty then some v else none
        | none => none) = _
  rw [show skipWs ('\x7b' :: t) = '\x7b' :: t from rfl]
  rw [show ('\x7b' :: t).length + 2 = (t.length + 2) + 1 from rfl]
  rw [parseVal_lbrace]
  cases hpm : parseMembers (t.length + 2) (skipWs t) [] true with
  | none => rfl
  | some pr =>
    obtain ⟨fs, r⟩ := pr
    rfl

theorem jsonLoadsL_lbrace_obj (t : List Char) (d : Json)
    (h : jsonLoadsL ('\x7b' :: t) = some d) : ∃ fs, d = Json.obj fs := by
  rw [jsonLoadsL_lbrace] at h
  cases hpm : parseMembers (t.length + 2) (skipWs t) [] true with
  | none => rw [hpm] at h; exact absurd h (by simp)
  | some pr =>
    obtain ⟨fs, r⟩ := pr
    rw [hpm] at h
    by_cases he : (skipWs r).isEmpty = true
    · simp only [he, if_true] at h
      exact ⟨fs, (Option.some.injEq .. |>.mp h).symm⟩
    · simp only [he, if_false, Bool.false_eq_true] at h
      exact absurd h (by simp)

/-- The brace slice is empty or starts with the opening brace. -/
theorem braceSnippet_shape (cs : List Char) :
    braceSnippet cs = [] ∨ ∃ t, braceSnippet cs = '\x7b' :: t := by
  cases hf : pyFind '\x7b' cs with
  | none =>
    left
    unfold braceSnippet
    rw [hf]
  | some start =>
    have hd := pyFind_head '\x7b' cs start hf
    have hb : braceSnippet cs = (cs.drop start).take
        ((match pyRfind '\x7d' cs with | none => 0 | some i => i + 1) - start) := by
      unfold braceSnippet
      rw [hf]
    rw [hb]
    generalize (match pyRfind '\x7d' cs with | none => 0 | some i => i + 1) - start = k
    cases k with
    | zero => left; rfl
    | succ k' =>
      right
      cases hcs : cs.drop start with
      | nil => rw [hcs] at hd; exact absurd hd (by simp)
      | cons x rest =>
        rw [hcs] at hd
        simp at hd
        rw [hd]
        exact ⟨rest.take k', rfl⟩

/-- A message whose raw content lacks the literal substring `title` never
yields a candidate, whatever the brace slice contains. -/
theorem extract_none_of_no_title (cs : List Char)
    (h : hasSubstr titleChars cs = false) :
    extractCandidateL cs = none := by
  unfold extractCandidateL
  simp [h]

/-- On contents containing the literal substring `title`, the source's
scan and the spec's extractor algorithm agree exactly. -/
theorem extract_eq_spec_of_title (cs : List Char)
    (h : hasSubstr titleChars cs = true) :
    extractCandidateL cs = specResponseExtractL cs := by
  unfold extractCandidateL specResponseExtractL
  cases hf : pyFind '\x7b' cs with
  | none =>
    have hg : hasSubstr ['\x7b'] cs = false := by
      rw [hasSubstr_singleton, hf]
      rfl
    simp [hg, hf]
  | some start =>
    have hg : hasSubstr ['\x7b'] cs = true := by
      rw [hasSubstr_singleton, hf]
      rfl
    cases hr : pyRfind '\x7d' cs with
    | none =>
      have hb : braceSnippet cs = [] := by
        unfold braceSnippet
        rw [hf, hr]
        simp
      simp [hg, h, hf, hr, hb, jsonLoadsL_nil]
    | some i =>
      rcases braceSnippet_shape cs with hb | ⟨t, hb⟩
      · simp [hg, h, hf, hr, hb, jsonLoadsL_nil]
      · rw [hb]
        cases hl : jsonLoadsL ('\x7b' :: t) with
        | none => simp [hg, h, hf, hr, hl]
        | some d =>
          obtain ⟨fs, rfl⟩ := jsonLoadsL_lbrace_obj t d hl
          simp only [hg, h, hf, hr, hl, Bool.and_self, if_true, pyInStr, jsonHasTitleField]

/-- The source's scan yields a candidate only where the spec's extractor
does: it refines the spec extractor downward. -/
theorem extract_none_of_spec_none (m : String)
    (h : specResponseExtract m = none) : extractCandidate m = none := by
  cases ht : hasSubstr titleChars m.toList with
  | false => exact extract_none_of_no_title m.toList ht
  | true =>
    show extractCandidateL m.toList = none
    rw [extract_eq_spec_of_title m.toList ht]
    exact h

/-- C1: for every input sequence of feedback items, the batch loop
(`run_all`) returns exactly one TicketRecord per input item, and the
output sequence preserves the input order: the i-th output is the ticket
of the i-th input item. -/
theorem C1_one_ticket_per_item_in_order :
    ∀ (o : FeedbackItem → Nat → TurnOutcome) (items : List FeedbackItem),
      (run_all o items).length = items.length ∧
      ∀ i : Nat, (run_all o items)[i]? =
        (items[i]?).map (fun item =>
          mkTicket item (process_single_item item.id item.type item.text (o item))) := by
  intro o items
  rw [run_all_eq_map]
  constructor
  · simp
  · intro i
    simp [List.getElem?_map]

/-- C2: for every item whose run contains no message with a parseable JSON
object having a `title` field (the spec's extractor finds no candidate in
any streamed message), the returned record is exactly the deterministic
fallback record. -/
theorem C2_no_candidate_gives_fallback (row_id source_type text : String)
    (o : Nat → TurnOutcome)
    (h : (streamMsgs (task_msg row_id text) o).all
        (fun m => (specResponseExtract m).isNone) = true) :
    process_single_item row_id source_type text o = fallbackRecord row_id := by
  rw [process_single_item_char]
  have hall : ∀ m ∈ (streamMsgs (task_msg row_id text) o).reverse,
      extractCandidate m = none := by
    intro m hm
    exact extract_none_of_spec_none m
      (Option.isNone_iff_eq_none.mp
        (List.all_eq_true.mp h m (List.mem_reverse.mp hm)))
  rw [findSome?_eq_none_of_all extractCandidate _ hall]

theorem C2_witness :
    process_single_item "R1" "Review" "App crashes on login"
      (fun _ => TurnOutcome.ok "no structured output") = fallbackRecord "R1" :=
  C2_no_candidate_gives_fallback "R1" "Review" "App crashes on login"
    (fun _ => TurnOutcome.ok "no structured output") (by decide)

/-- C3: across any sequence of messages in one item's run, the accepted
candidate (`final_json`) equals the most recent valid candidate: a later
valid candidate replaces an earlier one, and messages yielding no
candidate never overwrite a previously accepted one. -/
theorem C3_last_valid_wins :
    ∀ (init : Json) (msgs : List String),
      foldCandidates init msgs =
        match msgs.reverse.findSome? extractCandidate with
        | some j => j
        | none => init := by
  intro init msgs
  exact foldCandidates_eq_last msgs init

/-- C4 counterexample: the claim's "candidate if and only if the
first-brace-to-last-brace substring parses as JSON with a `title` field"
fails: the source additionally requires the raw content to contain the
literal substring `title` before trying to parse, so a content whose
`title` key is spelled with the JSON escape `\u0074` parses as a
title-bearing object (as the spec's extractor confirms) yet yields no
candidate in the code. -/
theorem C4_counterexample :
    extractCandidate "\x7b\"\\u0074itle\": 1\x7d" = none ∧
    specResponseExtract "\x7b\"\\u0074itle\": 1\x7d" =
      some (Json.obj [("title", Json.num "1")]) := ⟨rfl, rfl⟩

/-- C4 (amended): for messages whose raw content contains the literal
substring `title`, the extractor behaves exactly as the claim states
(first `\x7b` to last `\x7d`, candidate iff that slice parses as JSON with
a `title` field, failures swallowed); contents without that literal
substring never yield a candidate; and the scan applies to every message
of the run's stream, whose last candidate (or the fallback) is the item's
result. -/
theorem C4_amended_guarded_extractor_refinement :
    ∀ content : String,
      (hasSubstr titleChars content.toList = true →
        extractCandidate content = specResponseExtract content) ∧
      (hasSubstr titleChars content.toList = false →
        extractCandidate content = none) ∧
      (∀ (row_id source_type text : String) (o : Nat → TurnOutcome),
        process_single_item row_id source_type text o =
          match (streamMsgs (task_msg row_id text) o).reverse.findSome?
              extractCandidate with
          | some j => j
          | none => fallbackRecord row_id) := by
  intro content
  exact ⟨fun h => extract_eq_spec_of_title content.toList h,
         fun h => extract_none_of_no_title content.toList h,
         fun rid ty text o => process_single_item_char rid ty text o⟩

theorem C4_witness :
    extractCandidate "ok: \x7b\"title\": \"T\"\x7d" =
      specResponseExtract "ok: \x7b\"title\": \"T\"\x7d" ∧
    extractCandidate "nothing here" = none :=
  ⟨(C4_amended_guarded_extractor_refinement "ok: \x7b\"title\": \"T\"\x7d").1 (by decide),
   (C4_amended_guarded_extractor_refinement "nothing here").2.1 (by decide)⟩

/-- Stage outputs for the C5 counterexample: a valid candidate on turn 0,
then a generation error on turn 1. -/
def c5Oracle : Nat → TurnOutcome :=
  fun t => if t == 0 then TurnOutcome.ok "\x7b\"title\": \"X\"\x7d"
           else TurnOutcome.genError "boom"

/-- C5 counterexample: a GenerationError does not always produce the
fallback record: when a valid candidate was scanned before the abort, the
candidate is returned instead. -/
theorem C5_counterexample :
    runErr (task_msg "R1" "plain feedback") c5Oracle = some "boom" ∧
    process_single_item "R1" "Review" "plain feedback" c5Oracle =
      Json.obj [("title", Json.str "X")] ∧
    process_single_item "R1" "Review" "plain feedback" c5Oracle ≠
      fallbackRecord "R1" := by
  refine ⟨rfl, rfl, ?_⟩
  have hp : process_single_item "R1" "Review" "plain feedback" c5Oracle =
      Json.obj [("title", Json.str "X")] := rfl
  rw [hp]
  intro hcontra
  simp [fallbackRecord] at hcontra

/-- C5 (amended): a GenerationError at any stage produces the fallback
record for that item provided no candidate had been accepted from the
messages streamed before the abort; and, in any case, one item's outcome
is independent of every other item's stage outputs: the i-th ticket of the
batch depends only on the oracle at the i-th item. -/
theorem C5_amended_generror_fallback_and_independence :
    (∀ (row_id source_type text : String) (o : Nat → TurnOutcome) (e : String),
      runErr (task_msg row_id text) o = some e →
      (streamMsgs (task_msg row_id text) o).all
        (fun m => (extractCandidate m).isNone) = true →
      process_single_item row_id source_type text o = fallbackRecord row_id) ∧
    (∀ (o1 o2 : FeedbackItem → Nat → TurnOutcome) (items : List FeedbackItem)
        (i : Nat) (item : FeedbackItem),
      items[i]? = some item → o1 item = o2 item →
      (run_all o1 items)[i]? = (run_all o2 items)[i]?) := by
  constructor
  · intro rid ty text o e herr hall
    rw [process_single_item_char]
    have h2 : ∀ m ∈ (streamMsgs (task_msg rid text) o).reverse,
        extractCandidate m = none := by
      intro m hm
      exact Option.isNone_iff_eq_none.mp
        (List.all_eq_true.mp hall m (List.mem_reverse.mp hm))
    rw [findSome?_eq_none_of_all extractCandidate _ h2]
  · intro o1 o2 items i item hi ho
    rw [run_all_eq_map, run_all_eq_map, List.getElem?_map, List.getElem?_map, hi]
    simp [ho]

/-- Stage outputs for the C5 witness: a generation error on turn 0. -/
def c5wOracle : Nat → TurnOutcome :=
  fun t => if t == 0 then TurnOutcome.genError "boom" else TurnOutcome.ok "x"

theorem C5_witness :
    process_single_item "R2" "Review" "plain" c5wOracle = fallbackRecord "R2" ∧
    (run_all (fun _ _ => TurnOutcome.ok "a") [⟨"R1", "Review", "t"⟩])[0]? =
      (run_all (fun item => if item.id == "ZZZ" then (fun _ => TurnOutcome.ok "b")
          else (fun _ => TurnOutcome.ok "a")) [⟨"R1", "Review", "t"⟩])[0]? :=
  ⟨C5_amended_generror_fallback_and_independence.1 "R2" "Review" "plain" c5wOracle
      "boom" rfl (by decide),
   C5_amended_generror_fallback_and_independence.2 (fun _ _ => TurnOutcome.ok "a")
      (fun item => if item.id == "ZZZ" then (fun _ => TurnOutcome.ok "b")
        else (fun _ => TurnOutcome.ok "a"))
      [⟨"R1", "Review", "t"⟩] 0 ⟨"R1", "Review", "t"⟩ rfl rfl⟩

/-- C6: in every run of the deliberation scheduler the number of stage
invocations never exceeds the configured cap `max_turns` (6), whether or
not approval is reached. -/
theorem C6_turns_never_exceed_cap :
    ∀ (task : String) (o : Nat → TurnOutcome), turns_taken task o ≤ max_turns := by
  intro task o
  unfold turns_taken runLog
  by_cases h : containsToken task = true
  · simp [h]
  · simp only [h, if_false, Bool.false_eq_true]
    exact runLogAux_length o max_turns 0

/-- C7: if a stage output at turn `t` contains the literal termination
token, no later turn occurs: every invocation in the run's log has turn
index at most `t`. -/
theorem C7_token_halts_further_turns :
    ∀ (task : String) (o : Nat → TurnOutcome) (t : Nat) (c : String),
      (t, TurnOutcome.ok c) ∈ runLog task o → containsToken c = true →
      (runLog task o).all (fun p => decide (p.1 ≤ t)) = true := by
  intro task o t c hmem htok
  rw [List.all_eq_true]
  intro p hp
  rw [decide_eq_true_eq]
  unfold runLog at hmem hp
  by_cases hta : containsToken task = true
  · rw [if_pos hta] at hmem
    simp at hmem
  · rw [if_neg hta] at hmem hp
    exact runLogAux_token_last o max_turns 0 t c hmem htok p hp

theorem C7_witness :
    (runLog "start" (fun _ => TurnOutcome.ok "APPROVED")).all
      (fun p => decide (p.1 ≤ 0)) = true :=
  C7_token_halts_further_turns "start" (fun _ => TurnOutcome.ok "APPROVED") 0
    "APPROVED" (by decide) (by decide)

/-- C8: a source whose (stripped) columns miss a required column is
skipped in its entirety with a warning, and the prepared batch consists
exactly of the other source's items (so the batch continues over them);
symmetrically for either source. -/
theorem C8_missing_columns_skip_source_with_warning :
    ∀ reviews emails : Table,
      (hasReviewCols (stripColumns reviews) = false →
        (prepareItems reviews emails).warnedReviews = true ∧
        (prepareItems reviews emails).items =
          (if hasEmailCols (stripColumns emails)
           then emailItems (stripColumns emails) else [])) ∧
      (hasEmailCols (stripColumns emails) = false →
        (prepareItems reviews emails).warnedEmails = true ∧
        (prepareItems reviews emails).items =
          (if hasReviewCols (stripColumns reviews)
           then reviewItems (stripColumns reviews) else [])) := by
  intro reviews emails
  constructor
  · intro h
    unfold prepareItems
    simp [h]
  · intro h
    unfold prepareItems
    simp [h]

theorem C8_witness :
    (prepareItems ⟨["id", "text"], [["a", "b"]]⟩
        ⟨["email_id", "body"], [["E1", "hello"]]⟩).warnedReviews = true ∧
    (prepareItems ⟨["id", "text"], [["a", "b"]]⟩
        ⟨["email_id", "body"], [["E1", "hello"]]⟩).items =
      (if hasEmailCols (stripColumns ⟨["email_id", "body"], [["E1", "hello"]]⟩)
       then emailItems (stripColumns ⟨["email_id", "body"], [["E1", "hello"]]⟩)
       else []) :=
  (C8_missing_columns_skip_source_with_warning ⟨["id", "text"], [["a", "b"]]⟩
      ⟨["email_id", "body"], [["E1", "hello"]]⟩).1 (by decide)

/-- Stage outputs for the C9 counterexample: a candidate whose category
and priority lie outside the spec's enumerations. -/
def c9Oracle : FeedbackItem → Nat → TurnOutcome :=
  fun _ t =>
    if t == 0 then
      TurnOutcome.ok "\x7b\"title\": \"T\", \"category\": \"Banana\", \"priority\": \"Urgent\"\x7d"
    else TurnOutcome.ok "x"

/-- C9 counterexample: the produced ticket's category and priority are not
confined to the spec's enumerations: the code copies whatever strings the
extracted JSON carries, with no validation. -/
theorem C9_counterexample :
    ((run_all c9Oracle [⟨"R1", "Review", "plain feedback"⟩]).head?).map
        TicketRecord.category = some (Json.str "Banana") ∧
    isSpecCategory (Json.str "Banana") = false ∧
    ((run_all c9Oracle [⟨"R1", "Review", "plain feedback"⟩]).head?).map
        TicketRecord.priority = some (Json.str "Urgent") ∧
    isSpecPriority (Json.str "Urgent") = false := ⟨rfl, rfl, rfl, rfl⟩

/-- C9 (amended): every produced ticket either comes from the fallback
record — whose category `Error` and priority `Low` do lie in the spec's
enumerations — or carries, unvalidated, exactly the `category` and
`priority` values of the accepted candidate JSON (defaulting to
`Uncategorized` and `Low` when absent). -/
theorem C9_amended_category_priority_unvalidated :
    ∀ (o : FeedbackItem → Nat → TurnOutcome) (item : FeedbackItem),
      (process_single_item item.id item.type item.text (o item) =
          fallbackRecord item.id ∧
        (mkTicket item (process_single_item item.id item.type item.text
            (o item))).category = Json.str "Error" ∧
        (mkTicket item (process_single_item item.id item.type item.text
            (o item))).priority = Json.str "Low") ∨
      (∃ j, (streamMsgs (task_msg item.id item.text) (o item)).reverse.findSome?
            extractCandidate = some j ∧
        process_single_item item.id item.type item.text (o item) = j ∧
        (mkTicket item (process_single_item item.id item.type item.text
            (o item))).category = dictGetD j "category" (Json.str "Uncategorized") ∧
        (mkTicket item (process_single_item item.id item.type item.text
            (o item))).priority = dictGetD j "priority" (Json.str "Low")) := by
  intro o item
  cases h : (streamMsgs (task_msg item.id item.text) (o item)).reverse.findSome?
      extractCandidate with
  | none =>
    left
    have hp : process_single_item item.id item.type item.text (o item) =
        fallbackRecord item.id := by
      rw [process_single_item_char, h]
    refine ⟨hp, ?_, ?_⟩ <;> rw [hp] <;> rfl
  | some j =>
    right
    have hp : process_single_item item.id item.type item.text (o item) = j := by
      rw [process_single_item_char, h]
    exact ⟨j, rfl, hp, by rw [hp]; rfl, by rw [hp]; rfl⟩

/-- C10: the candidate scan also covers the initial task message, which
embeds the item's raw feedback text: for an item whose text itself
contains a title-bearing JSON object, that object becomes the accepted
result even though no stage output ever yields a candidate. -/
theorem C10_task_message_scanned :
    process_single_item "R1" "Review" "\x7b\"title\": \"Crash\", \"category\": \"Bug\"\x7d"
      (fun _ => TurnOutcome.ok "no structured output") =
      Json.obj [("title", Json.str "Crash"), ("category", Json.str "Bug")] ∧
    extractCandidate "no structured output" = none := ⟨rfl, rfl⟩
